import Mathlib

/-!
Verification of the streaming-event (SSE) client of `solid-primitives`:
the transform layer (`packages/sse/src/transform.ts`), the worker tunnel
facade (`packages/sse/src/worker.ts`), the worker-side connection registry
(`packages/sse/src/worker-handler.ts`), and the reactive connection manager
`createSSE` (`packages/sse/src/sse.ts`), shallowly embedded as executable
Lean definitions.
-/

namespace SSE

/-! ## Transform layer (`transform.ts`)

A JS transform may throw; a throwing function `string → T` is embedded as
`String → Except E T`.  `JSON.parse` is a platform primitive, so the line
parser is kept abstract as a parameter `parse : String → Except E J`. -/

/-- JS `Array.prototype.map` with exception propagation: applies `parse` to
each element, stopping at (and propagating) the first failure, discarding
partial results — the behavior of `.map(line => JSON.parse(line))`. -/
def mapParse (parse : String → Except E J) : List String → Except E (List J)
  | [] => .ok []
  | l :: ls =>
    match parse l with
    | .error e => .error e
    | .ok v =>
      match mapParse parse ls with
      | .error e => .error e
      | .ok vs => .ok (v :: vs)

/-- JS `String.prototype.split` with a single-character separator, on the
character list: `"".split(sep)` is `[""]`, a leading/trailing/doubled
separator yields empty segments. -/
def splitChar (sep : Char) : List Char → List (List Char)
  | [] => [[]]
  | c :: cs =>
    match splitChar sep cs with
    | [] => [[]]
    | seg :: rest => if c = sep then [] :: seg :: rest else (c :: seg) :: rest

/-- `raw.split(sep)` for a one-character separator (the `"\n"` used by
`ndjson` and `lines`). -/
def jsSplit (sep : Char) (s : String) : List String :=
  (splitChar sep s.data).map (fun cs => String.mk cs)

/-- The non-empty lines of a raw payload:
`raw.split("\n").filter(line => line !== "")`. -/
def nonemptyLines (raw : String) : List String :=
  (jsSplit '\n' raw).filter (fun line => line ≠ "")

/-- `ndjson` from `transform.ts`:
`raw.split("\n").filter(line => line !== "").map(line => JSON.parse(line))`,
with the platform `JSON.parse` abstracted as `parse`. -/
def ndjson (parse : String → Except E J) (raw : String) : Except E (List J) :=
  mapParse parse ((jsSplit '\n' raw).filter (fun line => line ≠ ""))

/-- `lines` from `transform.ts`:
`raw.split("\n").filter(line => line !== "")` — never fails. -/
def lines (raw : String) : List String :=
  (jsSplit '\n' raw).filter (fun line => line ≠ "")

/-- `safe(transform, fallback?)` from `transform.ts`: calls `transform` in a
`try`/`catch`; on a throw returns `fallback` (JS `undefined` when absent —
both cases embedded as `fallback : Option T`, with `none` for absent /
`undefined`).  The result `Option T` has `none` exactly for the
no-fallback-and-threw case. -/
def safe (transform : String → Except E T) (fallback : Option T) :
    String → Option T :=
  fun raw =>
    match transform raw with
    | .ok v => some v
    | .error _ => fallback

/-- `pipe(a, b)` from `transform.ts`: `raw => b(a(raw))`.  No error handling
is added: a failure of `a` propagates unchanged, and `b` may itself fail. -/
def pipe (a : String → Except E A) (b : A → Except E B) : String → Except E B :=
  fun raw => (a raw).bind b

/-! ## Worker transport protocol (`worker.ts`)

`SSEWorkerMessage` is the discriminated union exchanged between the main
thread and the Worker.  `WorkerEventSource` is the client-side facade; its
`_listener` is the single demultiplexing point for the shared channel. -/

/-- The message union of `worker.ts` (`type SSEWorkerMessage`).  `readyState`
in `error` carries the transport-reported value `0 | 1 | 2`. -/
inductive SSEWorkerMessage where
  | connect (id url : String) (withCredentials : Option Bool) (events : Option (List String))
  | disconnect (id : String)
  | openMsg (id : String)
  | message (id data eventType : String)
  | error (id : String) (readyState : ℕ)
deriving DecidableEq

/-- The correlation id carried by a message (every variant has an `id` field). -/
def SSEWorkerMessage.msgId : SSEWorkerMessage → String
  | .connect id _ _ _ => id
  | .disconnect id => id
  | .openMsg id => id
  | .message id _ _ => id
  | .error id _ => id

/-- The mutable state of a `WorkerEventSource` proxy: its correlation id
(`this._id`, random, fixed at construction) and its cached ready state
(`this._readyState`, initially `CONNECTING = 0`). -/
structure WorkerEventSource where
  _id : String
  _readyState : ℕ
deriving DecidableEq

/-- An event dispatched by the proxy on itself (`this.dispatchEvent(...)`). -/
inductive ProxyEvent where
  | openEvt
  | messageEvt (eventType data : String)
  | errorEvt
deriving DecidableEq

/-- `WorkerEventSource._listener` from `worker.ts`: on an inbound channel
message, return early when `msg.id !== this._id`; otherwise handle
`open` / `message` / `error`.  Returns the updated proxy state together with
the list of events it dispatched on itself. -/
def listener (p : WorkerEventSource) (msg : SSEWorkerMessage) :
    WorkerEventSource × List ProxyEvent :=
  if msg.msgId ≠ p._id then (p, [])
  else
    match msg with
    | .openMsg _ => ({ p with _readyState := 1 }, [.openEvt])
    | .message _ data eventType => (p, [.messageEvt eventType data])
    | .error _ rs => ({ p with _readyState := rs }, [.errorEvt])
    | .connect _ _ _ _ => (p, [])
    | .disconnect _ => (p, [])

/-! ## Worker-side connection registry (`worker-handler.ts`)

The worker owns a `Map<string, VoidFunction>` from correlation id to the
cleanup of the real `EventSource` it opened for that id.  Connections are
identified here by their index in `instances`; `instances[i] = true` means
connection `i` is still open (its cleanup was never invoked). -/

/-- `JS Map.prototype.set` on an association list: replace the value when the
key is present, otherwise append a fresh entry. -/
def mapSet (k : String) (v : ℕ) (m : List (String × ℕ)) : List (String × ℕ) :=
  if m.any (fun p => p.1 = k) then
    m.map (fun p => if p.1 = k then (k, v) else p)
  else m ++ [(k, v)]

/-- `Map.prototype.get` on an association list. -/
def mapGet (k : String) (m : List (String × ℕ)) : Option ℕ :=
  (m.find? (fun p => p.1 = k)).map (·.2)

/-- `Map.prototype.delete` on an association list. -/
def mapDelete (k : String) (m : List (String × ℕ)) : List (String × ℕ) :=
  m.filter (fun p => p.1 ≠ k)

/-- Worker-side state: the `connections` map of `worker-handler.ts` plus the
pool of real platform connections it has opened (`true` = still open). -/
structure WorkerState where
  connections : List (String × ℕ)
  instances : List Bool
deriving DecidableEq

/-- The empty registry (`const connections = new Map()`). -/
def WorkerState.empty : WorkerState := ⟨[], []⟩

/-- `handleMessage` from `worker-handler.ts`, restricted to its state effects:
on `connect`, open a fresh platform connection via `makeSSE` and store its
cleanup under `id` (`connections.set(id, cleanup)`); on `disconnect`, invoke
the stored cleanup if any (`connections.get(data.id)?.()`) and remove the
entry (`connections.delete(data.id)`).  Other message kinds are
worker→client only and do nothing here. -/
def wHandleMessage (data : SSEWorkerMessage) (s : WorkerState) : WorkerState :=
  match data with
  | .connect id _ _ _ =>
    { connections := mapSet id s.instances.length s.connections
      instances := s.instances ++ [true] }
  | .disconnect id =>
    match mapGet id s.connections with
    | some n =>
      { connections := mapDelete id s.connections
        instances := s.instances.set n false }
    | none => { s with connections := mapDelete id s.connections }
  | _ => s

/-- Run a sequence of inbound messages through the worker registry. -/
def wRun (msgs : List SSEWorkerMessage) (s : WorkerState) : WorkerState :=
  msgs.foldl (fun s m => wHandleMessage m s) s

/-! ## Reactive connection manager (`createSSE` in `sse.ts`)

The manager is embedded as an executable transition system.  Machine
integers: the retry counter is a JS `number` that may be `Infinity`
(`reconnect: true`), so it is embedded as `Budget` rather than `ℕ`.

The transport (`EventSource`, or its `MockEventSource` test double) is
embedded per its platform contract: an open event fires only on a
CONNECTING transport and moves it to OPEN; an error event fires only on a
non-CLOSED transport and leaves it CONNECTING (transient — the browser
retries on its own) or CLOSED (terminal); a CLOSED transport, or one whose
listeners were detached by its cleanup, fires nothing. -/

/-- The retry counter: a JS `number` that is either `Infinity` or a natural.
`Infinity > 0` is true and `Infinity - 1 = Infinity`. -/
inductive Budget where
  | inf
  | fin (n : ℕ)
deriving DecidableEq

/-- `retriesLeft > 0`. -/
def Budget.pos : Budget → Bool
  | .inf => true
  | .fin n => n ≠ 0

/-- `retriesLeft--` (floor 0 on naturals, `Infinity` stays `Infinity`). -/
def Budget.dec : Budget → Budget
  | .inf => .inf
  | .fin n => .fin (n - 1)

/-- The `reconnect` option of `createSSE`: absent, `false`, `true`, or an
`SSEReconnectOptions` object with optional `retries` / `delay` fields. -/
inductive ReconnectOpt where
  | undef
  | rfalse
  | rtrue
  | obj (retries : Option Budget) (delay : Option ℕ)
deriving DecidableEq

/-- A resolved `SSEReconnectOptions` value (both fields optional). -/
structure RCfg where
  retries : Option Budget
  delay : Option ℕ
deriving DecidableEq

/-- `reconnectConfig` from `createSSE`:
`options.reconnect === true ? { retries: Infinity, delay: 3000 } :
!options.reconnect ? { retries: 0, delay: 0 } : options.reconnect`. -/
def reconnectConfig : ReconnectOpt → RCfg
  | .rtrue => ⟨some .inf, some 3000⟩
  | .undef => ⟨some (.fin 0), some 0⟩
  | .rfalse => ⟨some (.fin 0), some 0⟩
  | .obj r d => ⟨r, d⟩

/-- `reconnectConfig.retries ?? 0` (the seed loaded into `retriesLeft`). -/
def RCfg.retriesSeed (c : RCfg) : Budget := c.retries.getD (.fin 0)

/-- `reconnectConfig.delay ?? 3000` (the delay passed to `setTimeout`). -/
def RCfg.delayUsed (c : RCfg) : ℕ := c.delay.getD 3000

/-- Construction-time configuration of one `createSSE` call. -/
structure Config where
  url : String
  ropt : ReconnectOpt
  transform : Option (String → String)
  initialValue : Option String

/-- One `EventSource` handle created by `makeSSE` inside `_open`: the URL it
was opened on (also the `resolvedUrl` captured by its `handleError`
closure), its own transport `readyState`, and whether the listeners wired by
`makeSSE` are still attached (its cleanup not yet invoked). -/
structure Handle where
  url : String
  rs : ℕ
  attached : Bool
deriving DecidableEq

/-- One task scheduled by `setTimeout(() => _open(resolvedUrl), delay)`. -/
structure TimerTask where
  tid : ℕ
  url : String
  delay : ℕ
deriving DecidableEq

/-- The full mutable state of one `createSSE` instance.  Handles are
identified by their index into `handles`; `sourceSig` is the `source`
signal, `cleanupVar` the `currentCleanup` variable, `timerVar` the
`reconnectTimer` variable, and `pendingTimers` the platform timer queue
(the not-yet-fired, not-yet-cancelled `setTimeout` tasks). -/
structure MgrState where
  readyState : ℕ
  latestError : Option (ℕ × Bool)
  latestData : Option String
  retriesLeft : Budget
  timerVar : Option ℕ
  pendingTimers : List TimerTask
  handles : List Handle
  sourceSig : Option ℕ
  cleanupVar : Option ℕ
  currentUrl : String
  nextTimerId : ℕ
deriving DecidableEq

/-- `clearReconnectTimer`: if `reconnectTimer !== undefined`, cancel it
(`clearTimeout`) and reset the variable. -/
def clearReconnectTimer (s : MgrState) : MgrState :=
  match s.timerVar with
  | none => s
  | some t =>
    { s with
      timerVar := none
      pendingTimers := s.pendingTimers.filter (fun tk => tk.tid ≠ t) }

/-- The cleanup returned by `makeSSE` for handle `i`: `source.close()`
(transport goes to CLOSED) plus `removeEventListener` for every wired
handler (the handle is detached). -/
def cleanupHandle (i : ℕ) (hs : List Handle) : List Handle :=
  match hs[i]? with
  | some h => hs.set i { h with rs := 2, attached := false }
  | none => hs

/-- `_open(resolvedUrl)` from `createSSE`: clear any pending reconnect
timer, open a fresh connection via `makeSSE` (a new handle, transport
CONNECTING, listeners attached), then `setSource(es)`,
`setReadyState(es.readyState)` (CONNECTING at creation) and store the new
cleanup in `currentCleanup`.  The previous handle is not cleaned up here. -/
def openConn (url : String) (s : MgrState) : MgrState :=
  let s := clearReconnectTimer s
  let idx := s.handles.length
  { s with
    handles := s.handles ++ [⟨url, 0, true⟩]
    sourceSig := some idx
    cleanupVar := some idx
    readyState := 0 }

/-- `connect(resolvedUrl)`: reseed `retriesLeft` from `reconnectConfig`,
then `_open(resolvedUrl)`. -/
def connect (cfg : Config) (url : String) (s : MgrState) : MgrState :=
  openConn url { s with retriesLeft := (reconnectConfig cfg.ropt).retriesSeed }

/-- `currentCleanup?.(); currentCleanup = undefined`: invoke the cleanup of
the handle held in `currentCleanup` (if any) and forget it. -/
def invokeCleanup (s : MgrState) : MgrState :=
  match s.cleanupVar with
  | some i => { s with handles := cleanupHandle i s.handles, cleanupVar := none }
  | none => s

/-- `disconnect` (returned as `close`): clear the reconnect timer, zero the
retry budget, invoke and forget `currentCleanup`, clear the `source` signal
and set `readyState` to CLOSED. -/
def disconnect (s : MgrState) : MgrState :=
  let s := clearReconnectTimer s
  let s := invokeCleanup { s with retriesLeft := .fin 0 }
  { s with sourceSig := none, readyState := 2 }

/-- `manualReconnect` (returned as `reconnect`): read the current URL, then
`disconnect()` followed by `connect(currentUrl)`. -/
def manualReconnect (cfg : Config) (s : MgrState) : MgrState :=
  connect cfg s.currentUrl (disconnect s)

/-- The `createComputed` URL watcher: when the newly observed URL differs
from `prevUrl`, invoke and forget `currentCleanup`, then `connect` to the
new URL; otherwise do nothing. -/
def urlChange (cfg : Config) (u : String) (s : MgrState) : MgrState :=
  if u = s.currentUrl then s
  else connect cfg u (invokeCleanup { s with currentUrl := u })

/-- The `onCleanup` disposal callback: clear the reconnect timer, invoke and
forget `currentCleanup`.  Signals are not touched. -/
def disposeMgr (s : MgrState) : MgrState :=
  invokeCleanup (clearReconnectTimer s)

/-- `options.transform ? options.transform(e.data) : e.data`. -/
def applyTransform (cfg : Config) (d : String) : String :=
  match cfg.transform with
  | some f => f d
  | none => d

/-- `handleOpen` wired by `_open` to handle `i` (transport discipline: the
open event fires on a CONNECTING attached transport and moves it to OPEN):
`setReadyState(1); setError(undefined)`. -/
def doOpen (i : ℕ) (h : Handle) (s : MgrState) : MgrState :=
  { s with
    handles := s.handles.set i { h with rs := 1 }
    readyState := 1
    latestError := none }

/-- `handleMessage` wired by `_open` (fires on an OPEN attached transport):
`setData(transform ? transform(e.data) : e.data)`. -/
def doMessage (cfg : Config) (d : String) (s : MgrState) : MgrState :=
  { s with latestData := some (applyTransform cfg d) }

/-- `handleError` wired by `_open` to handle `i` (transport discipline: an
error fires on a non-CLOSED attached transport and leaves it CONNECTING
when transient, CLOSED when terminal): `setReadyState(es.readyState)`,
`setError(e)`, and when `es.readyState === CLOSED && retriesLeft > 0`,
decrement `retriesLeft` and schedule `setTimeout(() => _open(resolvedUrl),
reconnectConfig.delay ?? 3000)`. -/
def doError (cfg : Config) (i : ℕ) (h : Handle) (terminal : Bool) (s : MgrState) : MgrState :=
  let rs' : ℕ := if terminal then 2 else 0
  let s :=
    { s with
      handles := s.handles.set i { h with rs := rs' }
      readyState := rs'
      latestError := some (i, terminal) }
  if rs' = 2 ∧ s.retriesLeft.pos then
    { s with
      retriesLeft := s.retriesLeft.dec
      pendingTimers :=
        s.pendingTimers ++ [⟨s.nextTimerId, h.url, (reconnectConfig cfg.ropt).delayUsed⟩]
      timerVar := some s.nextTimerId
      nextTimerId := s.nextTimerId + 1 }
  else s

/-- The actions that can drive one `createSSE` instance: transport events
on a handle, the fire of a scheduled reconnect task, and the caller-facing
operations. -/
inductive Act where
  | openEvt (i : ℕ)
  | msgEvt (i : ℕ) (data : String)
  | errEvt (i : ℕ) (terminal : Bool)
  | timerFire (t : ℕ)
  | close
  | reconnectCall
  | urlSet (u : String)
  | dispose
deriving DecidableEq

/-- One step.  Transport events are guarded by the transport discipline
(attached, and in the ready state from which the platform fires that
event); a disabled action leaves the state unchanged.  A firing timer is
removed from the platform queue and runs `_open` on its captured URL. -/
def applyAct (cfg : Config) (s : MgrState) : Act → MgrState
  | .openEvt i =>
    match s.handles[i]? with
    | some h => if h.attached ∧ h.rs = 0 then doOpen i h s else s
    | none => s
  | .msgEvt i d =>
    match s.handles[i]? with
    | some h => if h.attached ∧ h.rs = 1 then doMessage cfg d s else s
    | none => s
  | .errEvt i terminal =>
    match s.handles[i]? with
    | some h => if h.attached ∧ h.rs ≠ 2 then doError cfg i h terminal s else s
    | none => s
  | .timerFire t =>
    match s.pendingTimers.find? (fun tk => tk.tid = t) with
    | some tk =>
      openConn tk.url
        { s with pendingTimers := s.pendingTimers.filter (fun tk' => tk'.tid ≠ t) }
    | none => s
  | .close => disconnect s
  | .reconnectCall => manualReconnect cfg s
  | .urlSet u => urlChange cfg u s
  | .dispose => disposeMgr s

/-- The state right after `createSSE` returns: signals initialized
(`readyState` CONNECTING, `data` the initial value, no error), then the
synchronous initial `connect(untrack(() => access(url)))`. -/
def initState (cfg : Config) : MgrState :=
  connect cfg cfg.url
    { readyState := 0
      latestError := none
      latestData := cfg.initialValue
      retriesLeft := .fin 0
      timerVar := none
      pendingTimers := []
      handles := []
      sourceSig := none
      cleanupVar := none
      currentUrl := cfg.url
      nextTimerId := 0 }

/-- Run a sequence of actions from the initial state. -/
def run (cfg : Config) (acts : List Act) : MgrState :=
  acts.foldl (applyAct cfg) (initState cfg)

/-! ## Structural invariant of the manager -/

/-- Every handle that is still attached has a CLOSED transport, so no
further transport event can fire on it. -/
def AllQuiet (hs : List Handle) : Prop :=
  ∀ (i : ℕ) (h : Handle), hs[i]? = some h → h.attached = true → h.rs = 2

/-- The inductive invariant of one `createSSE` instance:
* `linked`: every pending reconnect task is the one held in `reconnectTimer`;
* `one`: at most one reconnect task is pending;
* `quiet`: while a reconnect task is pending every attached transport is
  CLOSED (the task was scheduled by a terminal error on the current handle);
* `live`: a handle that is attached and not CLOSED is the current one —
  both the `source` signal and `currentCleanup` point at it;
* `closedQ`: when the manager reads CLOSED, every attached transport is
  CLOSED;
* `rsBound`: the manager's `readyState` is one of `0`, `1`, `2`. -/
structure Inv (s : MgrState) : Prop where
  linked : ∀ tk ∈ s.pendingTimers, s.timerVar = some tk.tid
  one : s.pendingTimers.length ≤ 1
  quiet : s.pendingTimers = [] ∨ AllQuiet s.handles
  live : ∀ (i : ℕ) (h : Handle), s.handles[i]? = some h → h.attached = true → h.rs ≠ 2 →
      s.sourceSig = some i ∧ s.cleanupVar = some i
  closedQ : s.readyState = 2 → AllQuiet s.handles
  rsBound : s.readyState ≤ 2

theorem clearReconnectTimer_handles (s : MgrState) :
    (clearReconnectTimer s).handles = s.handles := by
  unfold clearReconnectTimer; cases s.timerVar <;> rfl

theorem clearReconnectTimer_sourceSig (s : MgrState) :
    (clearReconnectTimer s).sourceSig = s.sourceSig := by
  unfold clearReconnectTimer; cases s.timerVar <;> rfl

theorem clearReconnectTimer_cleanupVar (s : MgrState) :
    (clearReconnectTimer s).cleanupVar = s.cleanupVar := by
  unfold clearReconnectTimer; cases s.timerVar <;> rfl

theorem clearReconnectTimer_readyState (s : MgrState) :
    (clearReconnectTimer s).readyState = s.readyState := by
  unfold clearReconnectTimer; cases s.timerVar <;> rfl

theorem clearReconnectTimer_retriesLeft (s : MgrState) :
    (clearReconnectTimer s).retriesLeft = s.retriesLeft := by
  unfold clearReconnectTimer; cases s.timerVar <;> rfl

theorem clearReconnectTimer_timerVar (s : MgrState) :
    (clearReconnectTimer s).timerVar = none := by
  unfold clearReconnectTimer
  cases ht : s.timerVar
  · exact ht
  · rfl

/-- With `linked`, clearing the reconnect timer empties the pending queue:
cancelling the stored task cancels the only pending one. -/
theorem clearReconnectTimer_pending (s : MgrState)
    (hlink : ∀ tk ∈ s.pendingTimers, s.timerVar = some tk.tid) :
    (clearReconnectTimer s).pendingTimers = [] := by
  unfold clearReconnectTimer
  cases ht : s.timerVar with
  | none =>
    cases hp : s.pendingTimers with
    | nil => simp [hp]
    | cons a l =>
      have := hlink a (by rw [hp]; exact List.mem_cons_self a l)
      rw [ht] at this; cases this
  | some t =>
    simp only [List.filter_eq_nil_iff]
    intro tk htk
    have := hlink tk htk
    rw [ht] at this
    simp_all

theorem getElem?_append_singleton {α : Type _} {l : List α} {a h : α} {i : ℕ}
    (hi : (l ++ [a])[i]? = some h) : l[i]? = some h ∨ (i = l.length ∧ h = a) := by
  rcases Nat.lt_or_ge i l.length with hlt | hge
  · left
    rw [List.getElem?_append] at hi
    simpa [hlt] using hi
  · right
    rw [List.getElem?_append_right hge] at hi
    rcases hk : i - l.length with _ | k
    · rw [hk] at hi
      simp only [List.getElem?_cons_zero, Option.some.injEq] at hi
      exact ⟨by omega, hi.symm⟩
    · rw [hk] at hi
      simp at hi

theorem openConn_pending (url : String) (s : MgrState)
    (hlink : ∀ tk ∈ s.pendingTimers, s.timerVar = some tk.tid) :
    (openConn url s).pendingTimers = [] := by
  simp [openConn, clearReconnectTimer_pending s hlink]

theorem openConn_handles (url : String) (s : MgrState) :
    (openConn url s).handles = s.handles ++ [⟨url, 0, true⟩] := by
  simp [openConn, clearReconnectTimer_handles]

theorem openConn_sourceSig (url : String) (s : MgrState) :
    (openConn url s).sourceSig = some s.handles.length := by
  simp [openConn, clearReconnectTimer_handles]

theorem openConn_cleanupVar (url : String) (s : MgrState) :
    (openConn url s).cleanupVar = some s.handles.length := by
  simp [openConn, clearReconnectTimer_handles]

theorem openConn_readyState (url : String) (s : MgrState) :
    (openConn url s).readyState = 0 := by
  simp [openConn]

theorem openConn_retriesLeft (url : String) (s : MgrState) :
    (openConn url s).retriesLeft = s.retriesLeft := by
  simp [openConn, clearReconnectTimer_retriesLeft]

theorem openConn_timerVar (url : String) (s : MgrState) :
    (openConn url s).timerVar = none := by
  simp [openConn, clearReconnectTimer_timerVar]

/-- After `_open` on a state whose attached transports are all CLOSED, the
invariant holds. -/
theorem openConn_inv (url : String) (s : MgrState)
    (hlink : ∀ tk ∈ s.pendingTimers, s.timerVar = some tk.tid)
    (hq : AllQuiet s.handles) : Inv (openConn url s) := by
  have hpend := openConn_pending url s hlink
  have hh := openConn_handles url s
  refine ⟨?_, ?_, ?_, ?_, ?_, ?_⟩
  · intro tk htk; rw [hpend] at htk; cases htk
  · rw [hpend]; simp
  · left; exact hpend
  · intro i h hget hatt hrs
    rw [hh] at hget
    rcases getElem?_append_singleton hget with hold | ⟨hi, he⟩
    · exact absurd (hq i h hold hatt) hrs
    · subst hi; subst he
      rw [openConn_sourceSig, openConn_cleanupVar]
      exact ⟨rfl, rfl⟩
  · intro hrs; rw [openConn_readyState] at hrs; cases hrs
  · rw [openConn_readyState]; decide

theorem connect_inv (cfg : Config) (url : String) (s : MgrState)
    (hlink : ∀ tk ∈ s.pendingTimers, s.timerVar = some tk.tid)
    (hq : AllQuiet s.handles) : Inv (connect cfg url s) :=
  openConn_inv url _ hlink hq

/-- The invariant holds as soon as `createSSE` returns. -/
theorem initState_inv (cfg : Config) : Inv (initState cfg) := by
  apply connect_inv
  · intro tk htk; cases htk
  · intro i h hget
    simp at hget

theorem invokeCleanup_pending (s : MgrState) :
    (invokeCleanup s).pendingTimers = s.pendingTimers := by
  unfold invokeCleanup; cases s.cleanupVar <;> rfl

theorem invokeCleanup_timerVar (s : MgrState) :
    (invokeCleanup s).timerVar = s.timerVar := by
  unfold invokeCleanup; cases s.cleanupVar <;> rfl

theorem invokeCleanup_readyState (s : MgrState) :
    (invokeCleanup s).readyState = s.readyState := by
  unfold invokeCleanup; cases s.cleanupVar <;> rfl

theorem invokeCleanup_retriesLeft (s : MgrState) :
    (invokeCleanup s).retriesLeft = s.retriesLeft := by
  unfold invokeCleanup; cases s.cleanupVar <;> rfl

theorem invokeCleanup_handles_length (s : MgrState) :
    (invokeCleanup s).handles.length = s.handles.length := by
  unfold invokeCleanup
  cases s.cleanupVar with
  | none => rfl
  | some i =>
    show (cleanupHandle i s.handles).length = _
    unfold cleanupHandle
    cases s.handles[i]? <;> simp

/-- Invoking `currentCleanup` leaves no attached non-CLOSED handle: the only
live handle (by `live`) was the one `currentCleanup` pointed at, and its
cleanup closes and detaches it. -/
theorem invokeCleanup_allQuiet (s : MgrState)
    (hlive : ∀ (i : ℕ) (h : Handle), s.handles[i]? = some h → h.attached = true → h.rs ≠ 2 →
      s.sourceSig = some i ∧ s.cleanupVar = some i) :
    AllQuiet (invokeCleanup s).handles := by
  unfold invokeCleanup
  cases hc : s.cleanupVar with
  | none =>
    intro i h hget hatt
    by_contra hrs
    have := (hlive i h hget hatt hrs).2
    rw [hc] at this; cases this
  | some j =>
    show AllQuiet (cleanupHandle j s.handles)
    unfold cleanupHandle
    cases hj : s.handles[j]? with
    | none =>
      intro i h hget hatt
      by_contra hrs
      have := (hlive i h hget hatt hrs).2
      rw [hc] at this
      have hij : i = j := (Option.some_inj.mp this).symm
      subst hij
      rw [hget] at hj; cases hj
    | some hdl =>
      intro i h hget hatt
      rcases Decidable.em (j = i) with he | hne
      · subst he
        rw [List.getElem?_set_self (by
          have := List.getElem?_eq_some_iff.mp hj
          exact this.1)] at hget
        injection hget with hh
        subst hh
        cases hatt
      · rw [List.getElem?_set_ne hne] at hget
        by_contra hrs
        have := (hlive i h hget hatt hrs).2
        rw [hc] at this
        exact hne (Option.some_inj.mp this)

/-- `handleOpen` preserves the invariant. -/
theorem doOpen_inv (i : ℕ) (h : Handle) (s : MgrState) (hInv : Inv s)
    (hget : s.handles[i]? = some h) (hatt : h.attached = true) (hrs : h.rs = 0) :
    Inv (doOpen i h s) := by
  have hpend : s.pendingTimers = [] := by
    rcases hInv.quiet with hp | hq
    · exact hp
    · have := hq i h hget hatt
      rw [hrs] at this; cases this
  refine ⟨?_, ?_, ?_, ?_, ?_, ?_⟩
  · intro tk htk
    show s.timerVar = _
    exact hInv.linked tk htk
  · show s.pendingTimers.length ≤ 1
    rw [hpend]; simp
  · left; exact hpend
  · intro i' h' hget' hatt' hrs'
    show s.sourceSig = some i' ∧ s.cleanupVar = some i'
    rw [show (doOpen i h s).handles = s.handles.set i { h with rs := 1 } from rfl] at hget'
    rcases Decidable.em (i = i') with he | hne
    · subst he
      rw [List.getElem?_set_self (List.getElem?_eq_some_iff.mp hget).1] at hget'
      injection hget' with hh
      subst hh
      exact hInv.live i h hget hatt (by rw [hrs]; simp)
    · rw [List.getElem?_set_ne hne] at hget'
      exact hInv.live i' h' hget' hatt' hrs'
  · intro habs
    cases habs
  · show (1:ℕ) ≤ 2
    decide

/-- A transient error (`es.readyState` still CONNECTING) only mirrors the
transport state and records the error: no timer, no retry-budget change. -/
theorem doError_transient (cfg : Config) (i : ℕ) (h : Handle) (s : MgrState) :
    doError cfg i h false s =
      { s with
        handles := s.handles.set i { h with rs := 0 }
        readyState := 0
        latestError := some (i, false) } := by
  unfold doError
  simp

/-- A terminal error with an exhausted budget only mirrors the transport
state and records the error. -/
theorem doError_terminal_nopos (cfg : Config) (i : ℕ) (h : Handle) (s : MgrState)
    (hpos : s.retriesLeft.pos = false) :
    doError cfg i h true s =
      { s with
        handles := s.handles.set i { h with rs := 2 }
        readyState := 2
        latestError := some (i, true) } := by
  unfold doError
  simp [hpos]

/-- A terminal error with budget remaining decrements the budget and
schedules exactly one reconnect task, on the same URL, after the configured
delay. -/
theorem doError_terminal_pos (cfg : Config) (i : ℕ) (h : Handle) (s : MgrState)
    (hpos : s.retriesLeft.pos = true) :
    doError cfg i h true s =
      { s with
        handles := s.handles.set i { h with rs := 2 }
        readyState := 2
        latestError := some (i, true)
        retriesLeft := s.retriesLeft.dec
        pendingTimers :=
          s.pendingTimers ++ [⟨s.nextTimerId, h.url, (reconnectConfig cfg.ropt).delayUsed⟩]
        timerVar := some s.nextTimerId
        nextTimerId := s.nextTimerId + 1 } := by
  unfold doError
  simp [hpos]

/-- Closing the transport of the only live handle leaves every attached
transport CLOSED. -/
theorem set_closed_allQuiet (i : ℕ) (h : Handle) (s : MgrState) (hInv : Inv s)
    (hget : s.handles[i]? = some h) (hatt : h.attached = true) (hrs : h.rs ≠ 2) :
    AllQuiet (s.handles.set i { h with rs := 2 }) := by
  intro i' h' hget' hatt'
  rcases Decidable.em (i = i') with he | hne
  · subst he
    rw [List.getElem?_set_self (List.getElem?_eq_some_iff.mp hget).1] at hget'
    injection hget' with hh
    subst hh
    rfl
  · rw [List.getElem?_set_ne hne] at hget'
    by_contra hrs'
    have h1 := (hInv.live i h hget hatt hrs).1
    have h2 := (hInv.live i' h' hget' hatt' hrs').1
    rw [h1] at h2
    exact hne (Option.some_inj.mp h2)

/-- `handleError` preserves the invariant. -/
theorem doError_inv (cfg : Config) (i : ℕ) (h : Handle) (terminal : Bool) (s : MgrState)
    (hInv : Inv s) (hget : s.handles[i]? = some h) (hatt : h.attached = true)
    (hrs : h.rs ≠ 2) : Inv (doError cfg i h terminal s) := by
  have hpend : s.pendingTimers = [] := by
    rcases hInv.quiet with hp | hq
    · exact hp
    · exact absurd (hq i h hget hatt) hrs
  cases terminal with
  | false =>
    rw [doError_transient]
    refine ⟨?_, ?_, ?_, ?_, ?_, ?_⟩
    · intro tk htk
      show s.timerVar = _
      exact hInv.linked tk htk
    · show s.pendingTimers.length ≤ 1
      exact hInv.one
    · left; exact hpend
    · intro i' h' hget' hatt' hrs'
      show s.sourceSig = some i' ∧ s.cleanupVar = some i'
      rcases Decidable.em (i = i') with he | hne
      · subst he
        rw [List.getElem?_set_self (List.getElem?_eq_some_iff.mp hget).1] at hget'
        injection hget' with hh
        subst hh
        exact hInv.live i h hget hatt hrs
      · rw [show ({ s with
            handles := s.handles.set i { h with rs := 0 }
            readyState := 0
            latestError := some (i, false) } : MgrState).handles
            = s.handles.set i { h with rs := 0 } from rfl,
          List.getElem?_set_ne hne] at hget'
        exact hInv.live i' h' hget' hatt' hrs'
    · intro habs
      cases habs
    · show (0:ℕ) ≤ 2
      decide
  | true =>
    have hquiet : AllQuiet (s.handles.set i { h with rs := 2 }) :=
      set_closed_allQuiet i h s hInv hget hatt hrs
    cases hpos : s.retriesLeft.pos with
    | false =>
      rw [doError_terminal_nopos cfg i h s hpos]
      refine ⟨?_, ?_, ?_, ?_, ?_, ?_⟩
      · intro tk htk
        show s.timerVar = _
        exact hInv.linked tk htk
      · exact hInv.one
      · right; exact hquiet
      · intro i' h' hget' hatt' hrs'
        exact absurd (hquiet i' h' hget' hatt') hrs'
      · intro _; exact hquiet
      · show (2:ℕ) ≤ 2
        decide
    | true =>
      rw [doError_terminal_pos cfg i h s hpos]
      refine ⟨?_, ?_, ?_, ?_, ?_, ?_⟩
      · intro tk htk
        show some s.nextTimerId = some tk.tid
        rw [hpend] at htk
        simp at htk
        rw [htk]
      · show (s.pendingTimers ++ [_]).length ≤ 1
        rw [hpend]; simp
      · right; exact hquiet
      · intro i' h' hget' hatt' hrs'
        exact absurd (hquiet i' h' hget' hatt') hrs'
      · intro _; exact hquiet
      · show (2:ℕ) ≤ 2
        decide

theorem disconnect_pendingTimers (s : MgrState)
    (hlink : ∀ tk ∈ s.pendingTimers, s.timerVar = some tk.tid) :
    (disconnect s).pendingTimers = [] := by
  show (invokeCleanup _).pendingTimers = []
  rw [invokeCleanup_pending]
  show (clearReconnectTimer s).pendingTimers = []
  exact clearReconnectTimer_pending s hlink

theorem disconnect_timerVar (s : MgrState) : (disconnect s).timerVar = none := by
  show (invokeCleanup _).timerVar = none
  rw [invokeCleanup_timerVar]
  show (clearReconnectTimer s).timerVar = none
  exact clearReconnectTimer_timerVar s

theorem disconnect_retriesLeft (s : MgrState) : (disconnect s).retriesLeft = .fin 0 := by
  show (invokeCleanup _).retriesLeft = _
  rw [invokeCleanup_retriesLeft]

/-- After `disconnect` every attached transport is CLOSED. -/
theorem disconnect_allQuiet (s : MgrState) (hInv : Inv s) :
    AllQuiet (disconnect s).handles := by
  show AllQuiet (invokeCleanup _).handles
  apply invokeCleanup_allQuiet
  intro i h hget hatt hrs
  have hget' : s.handles[i]? = some h := by
    rw [← clearReconnectTimer_handles s]; exact hget
  have := hInv.live i h hget' hatt hrs
  refine ⟨?_, ?_⟩
  · show (clearReconnectTimer s).sourceSig = some i
    rw [clearReconnectTimer_sourceSig]; exact this.1
  · show (clearReconnectTimer s).cleanupVar = some i
    rw [clearReconnectTimer_cleanupVar]; exact this.2

/-- `disconnect` preserves the invariant. -/
theorem disconnect_inv (s : MgrState) (hInv : Inv s) : Inv (disconnect s) := by
  have hpend := disconnect_pendingTimers s hInv.linked
  have hq := disconnect_allQuiet s hInv
  refine ⟨?_, ?_, ?_, ?_, ?_, ?_⟩
  · intro tk htk; rw [hpend] at htk; cases htk
  · rw [hpend]; simp
  · left; exact hpend
  · intro i h hget hatt hrs
    exact absurd (hq i h hget hatt) hrs
  · intro _; exact hq
  · show (2:ℕ) ≤ 2
    decide

/-- Disposal preserves the invariant. -/
theorem disposeMgr_inv (s : MgrState) (hInv : Inv s) : Inv (disposeMgr s) := by
  have hpend : (disposeMgr s).pendingTimers = [] := by
    show (invokeCleanup _).pendingTimers = []
    rw [invokeCleanup_pending]
    exact clearReconnectTimer_pending s hInv.linked
  have hq : AllQuiet (disposeMgr s).handles := by
    show AllQuiet (invokeCleanup _).handles
    apply invokeCleanup_allQuiet
    intro i h hget hatt hrs
    have hget' : s.handles[i]? = some h := by
      rw [← clearReconnectTimer_handles s]; exact hget
    have := hInv.live i h hget' hatt hrs
    rw [clearReconnectTimer_sourceSig, clearReconnectTimer_cleanupVar]
    exact this
  have hrs0 : (disposeMgr s).readyState = s.readyState := by
    show (invokeCleanup _).readyState = _
    rw [invokeCleanup_readyState, clearReconnectTimer_readyState]
  refine ⟨?_, ?_, ?_, ?_, ?_, ?_⟩
  · intro tk htk; rw [hpend] at htk; cases htk
  · rw [hpend]; simp
  · left; exact hpend
  · intro i h hget hatt hrs
    exact absurd (hq i h hget hatt) hrs
  · intro _; exact hq
  · rw [hrs0]; exact hInv.rsBound

/-- Every action preserves the invariant. -/
theorem applyAct_inv (cfg : Config) (s : MgrState) (a : Act) (hInv : Inv s) :
    Inv (applyAct cfg s a) := by
  cases a with
  | openEvt i =>
    simp only [applyAct]
    cases hget : s.handles[i]? with
    | none => exact hInv
    | some h =>
      show Inv (if h.attached = true ∧ h.rs = 0 then doOpen i h s else s)
      split_ifs with hc
      · exact doOpen_inv i h s hInv hget hc.1 hc.2
      · exact hInv
  | msgEvt i d =>
    simp only [applyAct]
    cases hget : s.handles[i]? with
    | none => exact hInv
    | some h =>
      show Inv (if h.attached = true ∧ h.rs = 1 then doMessage cfg d s else s)
      split_ifs with hc
      · exact ⟨hInv.linked, hInv.one, hInv.quiet, hInv.live, hInv.closedQ, hInv.rsBound⟩
      · exact hInv
  | errEvt i terminal =>
    simp only [applyAct]
    cases hget : s.handles[i]? with
    | none => exact hInv
    | some h =>
      show Inv (if h.attached = true ∧ h.rs ≠ 2 then doError cfg i h terminal s else s)
      split_ifs with hc
      · exact doError_inv cfg i h terminal s hInv hget hc.1 hc.2
      · exact hInv
  | timerFire t =>
    simp only [applyAct]
    cases hfind : s.pendingTimers.find? (fun tk => tk.tid = t) with
    | none => exact hInv
    | some tk =>
      apply openConn_inv
      · intro tk' htk'
        show s.timerVar = _
        exact hInv.linked tk' (List.mem_of_mem_filter htk')
      · show AllQuiet s.handles
        rcases hInv.quiet with hp | hq
        · rw [hp] at hfind; cases hfind
        · exact hq
  | close => exact disconnect_inv s hInv
  | reconnectCall =>
    apply connect_inv
    · intro tk htk
      rw [disconnect_pendingTimers s hInv.linked] at htk
      cases htk
    · exact disconnect_allQuiet s hInv
  | urlSet u =>
    simp only [applyAct, urlChange]
    split_ifs with hc
    · exact hInv
    · apply connect_inv
      · intro tk htk
        rw [invokeCleanup_pending] at htk
        rw [invokeCleanup_timerVar]
        exact hInv.linked tk htk
      · apply invokeCleanup_allQuiet
        intro i h hget hatt hrs
        exact hInv.live i h hget hatt hrs
  | dispose => exact disposeMgr_inv s hInv

/-- The invariant holds in every reachable state. -/
theorem run_inv (cfg : Config) (acts : List Act) : Inv (run cfg acts) := by
  rw [run]
  induction acts using List.reverseRecOn with
  | nil => exact initState_inv cfg
  | append_singleton l a ih =>
    rw [List.foldl_append]
    exact applyAct_inv cfg _ a ih

/-! ## Transform-layer lemmas -/

/-- `mapParse` succeeds exactly when every element parses, and then returns
the parses in order. -/
theorem mapParse_ok_iff {E J : Type} (parse : String → Except E J) (ls : List String)
    (vs : List J) :
    mapParse parse ls = .ok vs ↔
      List.Forall₂ (fun l v => parse l = .ok v) ls vs := by
  induction ls generalizing vs with
  | nil =>
    cases vs <;> simp [mapParse]
  | cons l ls ih =>
    cases hp : parse l with
    | error e =>
      simp only [mapParse, hp]
      constructor
      · intro hc; cases hc
      · intro hc
        cases hc with
        | cons hpl _ => rw [hp] at hpl; cases hpl
    | ok v =>
      cases hm : mapParse parse ls with
      | error e =>
        simp only [mapParse, hp, hm]
        constructor
        · intro hc; cases hc
        · intro hc
          cases hc with
          | cons hpl htl =>
            have := (ih _).mpr htl
            rw [hm] at this; cases this
      | ok vs' =>
        simp only [mapParse, hp, hm]
        constructor
        · intro hc
          injection hc with hc
          subst hc
          exact List.Forall₂.cons hp ((ih _).mp hm)
        · intro hc
          cases hc with
          | cons hpl htl =>
            rw [hp] at hpl
            injection hpl with hpl
            have := (ih _).mpr htl
            rw [hm] at this
            injection this with h2
            rw [hpl, h2]

/-- `mapParse` fails exactly when some element fails to parse. -/
theorem mapParse_error_iff {E J : Type} (parse : String → Except E J) (ls : List String) :
    (∃ e, mapParse parse ls = .error e) ↔ ∃ l ∈ ls, ∃ e, parse l = .error e := by
  induction ls with
  | nil =>
    simp [mapParse]
  | cons l ls ih =>
    cases hp : parse l with
    | error e =>
      simp only [mapParse, hp]
      constructor
      · intro _
        exact ⟨l, List.mem_cons_self l ls, e, hp⟩
      · intro _
        exact ⟨e, rfl⟩
    | ok v =>
      cases hm : mapParse parse ls with
      | error e' =>
        simp only [mapParse, hp, hm]
        constructor
        · intro _
          obtain ⟨l', hl', he'⟩ := ih.mp ⟨e', hm⟩
          exact ⟨l', List.mem_cons_of_mem l hl', he'⟩
        · intro _
          exact ⟨e', rfl⟩
      | ok vs =>
        simp only [mapParse, hp, hm]
        constructor
        · rintro ⟨e, he⟩; cases he
        · rintro ⟨l', hl', e, he⟩
          rcases List.mem_cons.mp hl' with rfl | hl'
          · rw [hp] at he; cases he
          · have := ih.mpr ⟨l', hl', e, he⟩
            obtain ⟨e'', he''⟩ := this
            rw [hm] at he''; cases he''


/-! ## Claim theorems: transform layer -/

/-- C7: for every input string, `ndjson` splits it on newline, drops empty
lines, parses each remaining line independently as a JSON value and returns
the parsed values in the original order (first conjunct); it fails as soon
as any one line fails to parse, discarding partial results (second
conjunct); and on `'\x7b"a":1\x7d\n\n\x7b"b":2\x7d\n'` it returns the two
parses in order — empty lines dropped, trailing newline tolerated (third
conjunct). -/
theorem claim_C7 :
    (∀ (E J : Type) (parse : String → Except E J) (raw : String) (vs : List J),
      ndjson parse raw = .ok vs ↔
        List.Forall₂ (fun l v => parse l = .ok v) (nonemptyLines raw) vs) ∧
    (∀ (E J : Type) (parse : String → Except E J) (raw : String),
      (∃ e, ndjson parse raw = .error e) ↔
        ∃ l ∈ nonemptyLines raw, ∃ e, parse l = .error e) ∧
    (∀ (E J : Type) (parse : String → Except E J) (a b : J),
      parse "\x7b\"a\":1\x7d" = .ok a → parse "\x7b\"b\":2\x7d" = .ok b →
      ndjson parse "\x7b\"a\":1\x7d\n\n\x7b\"b\":2\x7d\n" = .ok [a, b]) := by
  refine ⟨?_, ?_, ?_⟩
  · intro E J parse raw vs
    exact mapParse_ok_iff parse _ vs
  · intro E J parse raw
    exact mapParse_error_iff parse _
  · intro E J parse a b ha hb
    have hsplit :
        (jsSplit '\n' "\x7b\"a\":1\x7d\n\n\x7b\"b\":2\x7d\n").filter (fun line => line ≠ "")
          = ["\x7b\"a\":1\x7d", "\x7b\"b\":2\x7d"] := by decide
    rw [ndjson, hsplit]
    simp [mapParse, ha, hb]

/-- A concrete line parser standing in for `JSON.parse` on the two payloads
of the C7/C8 examples. -/
def stubParse (s : String) : Except String ℕ :=
  if s = "\x7b\"a\":1\x7d" then .ok 1
  else if s = "\x7b\"b\":2\x7d" then .ok 2
  else .error "unexpected token"

/-- Witness for C7 at a concrete parser and the spec's example input. -/
theorem claim_C7_witness :
    ndjson stubParse "\x7b\"a\":1\x7d\n\n\x7b\"b\":2\x7d\n" = .ok [1, 2] :=
  claim_C7.2.2 String ℕ stubParse 1 2 rfl rfl

/-- C8: `safe(transform, fallback?)` returns `transform(input)` whenever
`transform` does not throw, and the fallback (absent when none was given)
whenever it throws, never propagating the exception; in particular
`safe(json)` on `"not json"` is the fallback (or absent) and on
`'\x7b"a":1\x7d'` is the parse. -/
theorem claim_C8 :
    (∀ (E T : Type) (transform : String → Except E T) (fb : Option T) (raw : String) (v : T),
      transform raw = .ok v → safe transform fb raw = some v) ∧
    (∀ (E T : Type) (transform : String → Except E T) (fb : Option T) (raw : String) (e : E),
      transform raw = .error e → safe transform fb raw = fb) ∧
    (∀ (E T : Type) (json : String → Except E T) (e : E) (a : T),
      json "not json" = .error e → json "\x7b\"a\":1\x7d" = .ok a →
      safe json none "not json" = none ∧
      (∀ fb, safe json fb "not json" = fb) ∧
      (∀ fb, safe json fb "\x7b\"a\":1\x7d" = some a)) := by
  refine ⟨?_, ?_, ?_⟩
  · intro E T transform fb raw v hv
    simp [safe, hv]
  · intro E T transform fb raw e he
    simp [safe, he]
  · intro E T json e a he ha
    refine ⟨?_, ?_, ?_⟩
    · simp [safe, he]
    · intro fb; simp [safe, he]
    · intro fb; simp [safe, ha]

/-- Witness for C8 at a concrete parser, the malformed input and the
example payload. -/
theorem claim_C8_witness :
    safe stubParse none "not json" = none ∧
    (∀ fb, safe stubParse fb "not json" = fb) ∧
    (∀ fb, safe stubParse fb "\x7b\"a\":1\x7d" = some 1) :=
  claim_C8.2.2 String ℕ stubParse "unexpected token" 1 rfl rfl


/-! ## Claim theorems: connection-state machine -/

/-- The transport-event actions (open / message / error on some handle). -/
def Act.isTransport : Act → Bool
  | .openEvt _ => true
  | .msgEvt _ _ => true
  | .errEvt _ _ => true
  | _ => false

/-- The `readyState` transitions the manager exhibits under transport
events: the spec's CONNECTING→OPEN, CONNECTING→CLOSED and OPEN→CLOSED,
plus staying put, plus OPEN→CONNECTING (a transient error received while
OPEN mirrors the transport back to CONNECTING). -/
def AllowedTransition (a b : ℕ) : Prop :=
  (a, b) ∈ ([(0, 0), (0, 1), (0, 2), (1, 0), (1, 1), (1, 2), (2, 2)] : List (ℕ × ℕ))

theorem allowed_refl (x : ℕ) (hx : x ≤ 2) : AllowedTransition x x := by
  interval_cases x <;> simp [AllowedTransition]

theorem doError_readyState (cfg : Config) (i : ℕ) (h : Handle) (terminal : Bool)
    (s : MgrState) :
    (doError cfg i h terminal s).readyState = if terminal then 2 else 0 := by
  cases terminal with
  | false => rw [doError_transient]; rfl
  | true =>
    cases hpos : s.retriesLeft.pos with
    | false => rw [doError_terminal_nopos cfg i h s hpos]; rfl
    | true => rw [doError_terminal_pos cfg i h s hpos]; rfl

/-- In every reachable state, a transport event moves `readyState` only
along an allowed transition; in particular CLOSED is never left. -/
theorem transport_step_allowed (cfg : Config) (s : MgrState) (a : Act) (hInv : Inv s)
    (ht : a.isTransport = true) :
    AllowedTransition s.readyState (applyAct cfg s a).readyState := by
  have hb := hInv.rsBound
  cases a with
  | openEvt i =>
    simp only [applyAct]
    cases hget : s.handles[i]? with
    | none => exact allowed_refl _ hb
    | some h =>
      show AllowedTransition s.readyState
        (if h.attached = true ∧ h.rs = 0 then doOpen i h s else s).readyState
      split_ifs with hc
      · show AllowedTransition s.readyState 1
        have hne : s.readyState ≠ 2 := by
          intro h2
          have := hInv.closedQ h2 i h hget hc.1
          rw [hc.2] at this
          exact absurd this (by decide)
        have h01 : s.readyState = 0 ∨ s.readyState = 1 := by omega
        rcases h01 with h0 | h0 <;> rw [h0] <;> simp [AllowedTransition]
      · exact allowed_refl _ hb
  | msgEvt i d =>
    simp only [applyAct]
    cases hget : s.handles[i]? with
    | none => exact allowed_refl _ hb
    | some h =>
      show AllowedTransition s.readyState
        (if h.attached = true ∧ h.rs = 1 then doMessage cfg d s else s).readyState
      split_ifs with hc
      · exact allowed_refl _ hb
      · exact allowed_refl _ hb
  | errEvt i terminal =>
    simp only [applyAct]
    cases hget : s.handles[i]? with
    | none => exact allowed_refl _ hb
    | some h =>
      show AllowedTransition s.readyState
        (if h.attached = true ∧ h.rs ≠ 2 then doError cfg i h terminal s else s).readyState
      split_ifs with hc
      · rw [doError_readyState]
        have hne : s.readyState ≠ 2 := fun h2 => hc.2 (hInv.closedQ h2 i h hget hc.1)
        have h01 : s.readyState = 0 ∨ s.readyState = 1 := by omega
        rcases h01 with h0 | h0 <;> rw [h0] <;> cases terminal <;> simp [AllowedTransition]
      · exact allowed_refl _ hb
  | timerFire t => exact Bool.noConfusion ht
  | close => exact Bool.noConfusion ht
  | reconnectCall => exact Bool.noConfusion ht
  | urlSet u => exact Bool.noConfusion ht
  | dispose => exact Bool.noConfusion ht

/-- A minimal `createSSE` configuration used for concrete runs: fixed URL,
no `reconnect` option, no transform, no initial value. -/
def exCfg : Config := ⟨"u", .undef, none, none⟩

/-- C1 counterexample: within one logical connection (one handle, no new
`ConnectionState`), after the transport opens, a transient error event
(transport back to CONNECTING) moves the manager's `readyState` from OPEN
back to CONNECTING — the transition OPEN→CONNECTING that the claim rules
out does occur. -/
theorem claim_C1_counterexample :
    (run exCfg [.openEvt 0]).readyState = 1 ∧
    (Act.errEvt 0 false).isTransport = true ∧
    (run exCfg [.openEvt 0, .errEvt 0 false]).readyState = 0 ∧
    (run exCfg [.openEvt 0, .errEvt 0 false]).handles.length = 1 := by
  decide

/-- C1 (amended): `readyState` starts at CONNECTING, and under transport
open/error events moves only along CONNECTING→OPEN, CONNECTING→CLOSED,
OPEN→CLOSED, or OPEN→CONNECTING (transient error while OPEN); it never
leaves CLOSED except via an explicit new connection. -/
theorem claim_C1 (cfg : Config) (acts : List Act) (a : Act) (ht : a.isTransport = true) :
    (initState cfg).readyState = 0 ∧
    AllowedTransition (run cfg acts).readyState (applyAct cfg (run cfg acts) a).readyState :=
  ⟨rfl, transport_step_allowed cfg (run cfg acts) a (run_inv cfg acts) ht⟩

/-- Witness for C1 at a concrete configuration, trace and event. -/
theorem claim_C1_witness :
    (initState exCfg).readyState = 0 ∧
    AllowedTransition (run exCfg []).readyState
      (applyAct exCfg (run exCfg []) (.openEvt 0)).readyState :=
  claim_C1 exCfg [] (.openEvt 0) rfl

/-- C3 counterexample: a transient error received while the manager is OPEN
does change `readyState` (from OPEN to CONNECTING), contradicting the
claim's "does not change its readyState"; the handle's transport state `1`
confirms the error is the transient kind. -/
theorem claim_C3_counterexample :
    (run exCfg [.openEvt 0]).readyState = 1 ∧
    (run exCfg [.openEvt 0]).handles = [⟨"u", 1, true⟩] ∧
    (applyAct exCfg (run exCfg [.openEvt 0]) (.errEvt 0 false)).readyState = 0 ∧
    (applyAct exCfg (run exCfg [.openEvt 0]) (.errEvt 0 false)).latestError =
      some (0, false) := by
  decide

/-- C3 (amended): a transient transport error records the error in
`latestError` and sets `readyState` to the transport-reported CONNECTING —
so the state is unchanged whenever it already was CONNECTING, but an OPEN
manager regresses to CONNECTING — and it never schedules a reconnect task
nor touches the retry budget, regardless of the remaining budget. -/
theorem claim_C3 (cfg : Config) (acts : List Act) (i : ℕ) (h : Handle)
    (hget : (run cfg acts).handles[i]? = some h) (hatt : h.attached = true)
    (hrs : h.rs ≠ 2) :
    (applyAct cfg (run cfg acts) (.errEvt i false)).latestError = some (i, false) ∧
    (applyAct cfg (run cfg acts) (.errEvt i false)).readyState = 0 ∧
    ((run cfg acts).readyState = 0 →
      (applyAct cfg (run cfg acts) (.errEvt i false)).readyState =
        (run cfg acts).readyState) ∧
    (applyAct cfg (run cfg acts) (.errEvt i false)).pendingTimers =
      (run cfg acts).pendingTimers ∧
    (applyAct cfg (run cfg acts) (.errEvt i false)).timerVar = (run cfg acts).timerVar ∧
    (applyAct cfg (run cfg acts) (.errEvt i false)).retriesLeft =
      (run cfg acts).retriesLeft ∧
    (applyAct cfg (run cfg acts) (.errEvt i false)).handles.length =
      (run cfg acts).handles.length := by
  have hred : applyAct cfg (run cfg acts) (.errEvt i false) =
      doError cfg i h false (run cfg acts) := by
    simp only [applyAct, hget]
    rw [if_pos ⟨hatt, hrs⟩]
  rw [hred, doError_transient]
  refine ⟨rfl, rfl, ?_, rfl, rfl, rfl, ?_⟩
  · intro h0; rw [h0]
  · simp

/-- Witness for C3 on a fresh connection (manager CONNECTING, transport
CONNECTING). -/
theorem claim_C3_witness :
    (applyAct exCfg (run exCfg []) (.errEvt 0 false)).latestError = some (0, false) ∧
    (applyAct exCfg (run exCfg []) (.errEvt 0 false)).readyState = 0 ∧
    ((run exCfg []).readyState = 0 →
      (applyAct exCfg (run exCfg []) (.errEvt 0 false)).readyState =
        (run exCfg []).readyState) ∧
    (applyAct exCfg (run exCfg []) (.errEvt 0 false)).pendingTimers =
      (run exCfg []).pendingTimers ∧
    (applyAct exCfg (run exCfg []) (.errEvt 0 false)).timerVar = (run exCfg []).timerVar ∧
    (applyAct exCfg (run exCfg []) (.errEvt 0 false)).retriesLeft =
      (run exCfg []).retriesLeft ∧
    (applyAct exCfg (run exCfg []) (.errEvt 0 false)).handles.length =
      (run exCfg []).handles.length :=
  claim_C3 exCfg [] 0 ⟨"u", 0, true⟩ (by decide) rfl (by decide)

/-- C4: in every reachable state of one manager, at most one reconnect
task is pending. -/
theorem claim_C4 (cfg : Config) (acts : List Act) :
    (run cfg acts).pendingTimers.length ≤ 1 :=
  (run_inv cfg acts).one


/-! ## Quiescence: after the budget is spent or `close` is called -/

/-- Boolean check for `AllQuiet`, for evaluating concrete states. -/
def allQuietB (hs : List Handle) : Bool :=
  hs.all (fun h => !h.attached || h.rs = 2)

theorem allQuiet_of_b (hs : List Handle) (hb : allQuietB hs = true) : AllQuiet hs := by
  intro i h hget hatt
  have hmem : h ∈ hs := by
    have := List.getElem?_eq_some_iff.mp hget
    obtain ⟨hlt, hval⟩ := this
    exact hval ▸ List.getElem_mem hlt
  have := List.all_eq_true.mp hb h hmem
  rw [hatt] at this
  simpa using this

theorem cleanupHandle_allQuiet (j : ℕ) (hs : List Handle) (hq : AllQuiet hs) :
    AllQuiet (cleanupHandle j hs) := by
  unfold cleanupHandle
  cases hj : hs[j]? with
  | none => exact hq
  | some hj' =>
    intro i h hget hatt
    rcases Decidable.em (j = i) with he | hne
    · subst he
      rw [List.getElem?_set_self (List.getElem?_eq_some_iff.mp hj).1] at hget
      injection hget with hh
      subst hh
      cases hatt
    · rw [List.getElem?_set_ne hne] at hget
      exact hq i h hget hatt

theorem invokeCleanup_allQuiet_mono (s : MgrState) (hq : AllQuiet s.handles) :
    AllQuiet (invokeCleanup s).handles := by
  unfold invokeCleanup
  cases s.cleanupVar with
  | none => exact hq
  | some j => exact cleanupHandle_allQuiet j s.handles hq

/-- The actions a manager can experience without the caller explicitly
asking for a new connection (`reconnect()` or a URL change). -/
def NoConnectCall : Act → Bool
  | .reconnectCall => false
  | .urlSet _ => false
  | _ => true

/-- Run a sequence of actions from an arbitrary state. -/
def runFrom (cfg : Config) (s : MgrState) (acts : List Act) : MgrState :=
  acts.foldl (applyAct cfg) s

/-- In a quiescent state (no pending reconnect task, every attached
transport CLOSED), any action other than an explicit caller reconnect
leaves the system quiescent and opens no new transport. -/
theorem quiesced_step (cfg : Config) (s : MgrState) (a : Act)
    (hp : s.pendingTimers = []) (hq : AllQuiet s.handles)
    (ha : NoConnectCall a = true) :
    (applyAct cfg s a).pendingTimers = [] ∧ AllQuiet (applyAct cfg s a).handles ∧
      (applyAct cfg s a).handles.length = s.handles.length := by
  cases a with
  | openEvt i =>
    simp only [applyAct]
    cases hget : s.handles[i]? with
    | none => exact ⟨hp, hq, rfl⟩
    | some h =>
      show (if h.attached = true ∧ h.rs = 0 then doOpen i h s else s).pendingTimers = [] ∧
        AllQuiet (if h.attached = true ∧ h.rs = 0 then doOpen i h s else s).handles ∧
        (if h.attached = true ∧ h.rs = 0 then doOpen i h s else s).handles.length =
          s.handles.length
      split_ifs with hc
      · have := hq i h hget hc.1
        rw [hc.2] at this
        exact absurd this (by decide)
      · exact ⟨hp, hq, rfl⟩
  | msgEvt i d =>
    simp only [applyAct]
    cases hget : s.handles[i]? with
    | none => exact ⟨hp, hq, rfl⟩
    | some h =>
      show (if h.attached = true ∧ h.rs = 1 then doMessage cfg d s else s).pendingTimers = [] ∧
        AllQuiet (if h.attached = true ∧ h.rs = 1 then doMessage cfg d s else s).handles ∧
        (if h.attached = true ∧ h.rs = 1 then doMessage cfg d s else s).handles.length =
          s.handles.length
      split_ifs with hc
      · exact ⟨hp, hq, rfl⟩
      · exact ⟨hp, hq, rfl⟩
  | errEvt i terminal =>
    simp only [applyAct]
    cases hget : s.handles[i]? with
    | none => exact ⟨hp, hq, rfl⟩
    | some h =>
      show (if h.attached = true ∧ h.rs ≠ 2 then doError cfg i h terminal s else s).pendingTimers
          = [] ∧
        AllQuiet (if h.attached = true ∧ h.rs ≠ 2 then doError cfg i h terminal s else s).handles ∧
        (if h.attached = true ∧ h.rs ≠ 2 then doError cfg i h terminal s else s).handles.length =
          s.handles.length
      split_ifs with hc
      · exact absurd (hq i h hget hc.1) hc.2
      · exact ⟨hp, hq, rfl⟩
  | timerFire t =>
    simp only [applyAct]
    cases hfind : s.pendingTimers.find? (fun tk => tk.tid = t) with
    | none => exact ⟨hp, hq, rfl⟩
    | some tk =>
      have := List.mem_of_find?_eq_some hfind
      rw [hp] at this
      cases this
  | close =>
    refine ⟨disconnect_pendingTimers s ?_, ?_, ?_⟩
    · intro tk htk; rw [hp] at htk; cases htk
    · show AllQuiet (invokeCleanup _).handles
      apply invokeCleanup_allQuiet_mono
      show AllQuiet (clearReconnectTimer s).handles
      rw [clearReconnectTimer_handles]
      exact hq
    · show (invokeCleanup _).handles.length = _
      rw [invokeCleanup_handles_length]
      show (clearReconnectTimer s).handles.length = _
      rw [clearReconnectTimer_handles]
  | reconnectCall => exact Bool.noConfusion ha
  | urlSet u => exact Bool.noConfusion ha
  | dispose =>
    refine ⟨?_, ?_, ?_⟩
    · show (invokeCleanup _).pendingTimers = []
      rw [invokeCleanup_pending]
      apply clearReconnectTimer_pending
      intro tk htk; rw [hp] at htk; cases htk
    · apply invokeCleanup_allQuiet_mono
      rw [clearReconnectTimer_handles]
      exact hq
    · show (invokeCleanup _).handles.length = _
      rw [invokeCleanup_handles_length, clearReconnectTimer_handles]

/-- Quiescence persists along any caller-passive action sequence: no
reconnect task ever becomes pending again and no new transport is opened. -/
theorem quiesced_runFrom (cfg : Config) (rest : List Act) :
    ∀ s : MgrState, s.pendingTimers = [] → AllQuiet s.handles →
      (∀ a ∈ rest, NoConnectCall a = true) →
      (runFrom cfg s rest).pendingTimers = [] ∧ AllQuiet (runFrom cfg s rest).handles ∧
        (runFrom cfg s rest).handles.length = s.handles.length := by
  induction rest with
  | nil => exact fun s hp hq _ => ⟨hp, hq, rfl⟩
  | cons a rest ih =>
    intro s hp hq hall
    obtain ⟨hp1, hq1, hl1⟩ :=
      quiesced_step cfg s a hp hq (hall a (List.mem_cons_self a rest))
    obtain ⟨hp2, hq2, hl2⟩ :=
      ih (applyAct cfg s a) hp1 hq1 (fun a' ha' => hall a' (List.mem_cons_of_mem a ha'))
    exact ⟨hp2, hq2, hl2.trans hl1⟩


/-- The configuration of the spec's end-to-end reconnect scenario:
`reconnect: \x7b retries: 1, delay: 100 \x7d`. -/
def rcCfg : Config := ⟨"u", .obj (some (.fin 1)) (some 100), none, none⟩

/-- C2: a terminal transport error sets the state CLOSED and records the
error; with budget remaining it decrements the counter and schedules
exactly one reconnect task on the same URL after the configured delay,
otherwise it takes no further action (first conjunct).  Connecting with
`reconnect: \x7b retries: 1, delay: 100 \x7d` and erroring terminally yields
exactly one reconnect attempt — a second transport — after the 100ms task,
and none thereafter even though the second attempt also errors terminally
(second and third conjuncts). -/
theorem claim_C2 :
    (∀ (cfg : Config) (acts : List Act) (i : ℕ) (h : Handle),
      (run cfg acts).handles[i]? = some h → h.attached = true → h.rs ≠ 2 →
      (applyAct cfg (run cfg acts) (.errEvt i true)).readyState = 2 ∧
      (applyAct cfg (run cfg acts) (.errEvt i true)).latestError = some (i, true) ∧
      ((run cfg acts).retriesLeft.pos = true →
        (applyAct cfg (run cfg acts) (.errEvt i true)).retriesLeft =
          (run cfg acts).retriesLeft.dec ∧
        (applyAct cfg (run cfg acts) (.errEvt i true)).pendingTimers =
          [⟨(run cfg acts).nextTimerId, h.url, (reconnectConfig cfg.ropt).delayUsed⟩]) ∧
      ((run cfg acts).retriesLeft.pos = false →
        (applyAct cfg (run cfg acts) (.errEvt i true)).retriesLeft =
          (run cfg acts).retriesLeft ∧
        (applyAct cfg (run cfg acts) (.errEvt i true)).pendingTimers =
          (run cfg acts).pendingTimers)) ∧
    ((run rcCfg [.errEvt 0 true]).readyState = 2 ∧
     (run rcCfg [.errEvt 0 true]).retriesLeft = .fin 0 ∧
     (run rcCfg [.errEvt 0 true]).pendingTimers = [⟨0, "u", 100⟩] ∧
     (run rcCfg [.errEvt 0 true, .timerFire 0]).handles.length = 2 ∧
     (run rcCfg [.errEvt 0 true, .timerFire 0]).pendingTimers = [] ∧
     (run rcCfg [.errEvt 0 true, .timerFire 0, .errEvt 1 true]).pendingTimers = [] ∧
     (run rcCfg [.errEvt 0 true, .timerFire 0, .errEvt 1 true]).handles.length = 2) ∧
    (∀ rest : List Act, (∀ a ∈ rest, NoConnectCall a = true) →
      (runFrom rcCfg (run rcCfg [.errEvt 0 true, .timerFire 0, .errEvt 1 true])
          rest).handles.length = 2 ∧
      (runFrom rcCfg (run rcCfg [.errEvt 0 true, .timerFire 0, .errEvt 1 true])
          rest).pendingTimers = []) := by
  refine ⟨?_, by decide, ?_⟩
  · intro cfg acts i h hget hatt hrs
    have hInv := run_inv cfg acts
    have hpend : (run cfg acts).pendingTimers = [] := by
      rcases hInv.quiet with hzero | hq
      · exact hzero
      · exact absurd (hq i h hget hatt) hrs
    have hred : applyAct cfg (run cfg acts) (.errEvt i true) =
        doError cfg i h true (run cfg acts) := by
      simp only [applyAct, hget]
      rw [if_pos ⟨hatt, hrs⟩]
    rw [hred]
    cases hpos : (run cfg acts).retriesLeft.pos with
    | false =>
      rw [doError_terminal_nopos cfg i h _ hpos]
      refine ⟨rfl, rfl, ?_, fun _ => ⟨rfl, rfl⟩⟩
      intro hcontra
      cases hcontra
    | true =>
      rw [doError_terminal_pos cfg i h _ hpos]
      refine ⟨rfl, rfl, fun _ => ⟨rfl, ?_⟩, ?_⟩
      · show (run cfg acts).pendingTimers ++ _ = _
        rw [hpend]
        rfl
      · intro hcontra
        cases hcontra
  · intro rest hall
    have h3p : (run rcCfg [.errEvt 0 true, .timerFire 0, .errEvt 1 true]).pendingTimers
        = [] := by decide
    have h3q : AllQuiet (run rcCfg [.errEvt 0 true, .timerFire 0, .errEvt 1 true]).handles :=
      allQuiet_of_b _ (by decide)
    obtain ⟨hp, _, hl⟩ := quiesced_runFrom rcCfg rest _ h3p h3q hall
    have hlen : (run rcCfg [.errEvt 0 true, .timerFire 0, .errEvt 1 true]).handles.length
        = 2 := by decide
    exact ⟨by rw [hl, hlen], hp⟩

/-- Witness for C2: the terminal-error contract on a fresh connection, and
quiescence after the scenario under further terminal errors, stray timer
fires and disposal. -/
theorem claim_C2_witness :
    (applyAct rcCfg (run rcCfg []) (.errEvt 0 true)).readyState = 2 ∧
    (applyAct rcCfg (run rcCfg []) (.errEvt 0 true)).latestError = some (0, true) ∧
    (runFrom rcCfg (run rcCfg [.errEvt 0 true, .timerFire 0, .errEvt 1 true])
        [.errEvt 1 true, .timerFire 5, .dispose]).handles.length = 2 := by
  obtain ⟨hgen, _, hafter⟩ := claim_C2
  have h1 := hgen rcCfg [] 0 ⟨"u", 0, true⟩ (by decide) rfl (by decide)
  have h2 := hafter [.errEvt 1 true, .timerFire 5, .dispose] (by decide)
  exact ⟨h1.1, h1.2.1, h2.1⟩

/-- C6: `close()` cancels any pending reconnect task, zeroes the retry
budget, clears the `source` signal and sets `readyState` CLOSED; afterwards
— short of an explicit caller `reconnect()` or URL change — no reconnect
task is ever pending again and no new transport is opened. -/
theorem claim_C6 (cfg : Config) (acts rest : List Act)
    (hrest : ∀ a ∈ rest, NoConnectCall a = true) :
    (applyAct cfg (run cfg acts) .close).pendingTimers = [] ∧
    (applyAct cfg (run cfg acts) .close).retriesLeft = .fin 0 ∧
    (applyAct cfg (run cfg acts) .close).sourceSig = none ∧
    (applyAct cfg (run cfg acts) .close).readyState = 2 ∧
    (runFrom cfg (applyAct cfg (run cfg acts) .close) rest).pendingTimers = [] ∧
    (runFrom cfg (applyAct cfg (run cfg acts) .close) rest).handles.length =
      (applyAct cfg (run cfg acts) .close).handles.length := by
  have hInv := run_inv cfg acts
  show (disconnect (run cfg acts)).pendingTimers = [] ∧ _
  have hp := disconnect_pendingTimers _ hInv.linked
  have hq := disconnect_allQuiet _ hInv
  obtain ⟨hp2, _, hl2⟩ := quiesced_runFrom cfg rest _ hp hq hrest
  exact ⟨hp, disconnect_retriesLeft _, rfl, rfl, hp2, hl2⟩

/-- Witness for C6: close a fresh connection, then deliver stray transport
events, a stray timer fire and disposal. -/
theorem claim_C6_witness :
    (applyAct exCfg (run exCfg []) .close).pendingTimers = [] ∧
    (applyAct exCfg (run exCfg []) .close).retriesLeft = .fin 0 ∧
    (applyAct exCfg (run exCfg []) .close).sourceSig = none ∧
    (applyAct exCfg (run exCfg []) .close).readyState = 2 ∧
    (runFrom exCfg (applyAct exCfg (run exCfg []) .close)
        [.openEvt 0, .errEvt 0 true, .timerFire 0]).pendingTimers = [] ∧
    (runFrom exCfg (applyAct exCfg (run exCfg []) .close)
        [.openEvt 0, .errEvt 0 true, .timerFire 0]).handles.length =
      (applyAct exCfg (run exCfg []) .close).handles.length :=
  claim_C6 exCfg [] [.openEvt 0, .errEvt 0 true, .timerFire 0] (by decide)


/-! ## Zero retry budget -/

/-- With a zero retry seed, every action keeps the budget at zero and the
reconnect queue empty. -/
theorem zeroBudget_step (cfg : Config)
    (hseed : (reconnectConfig cfg.ropt).retriesSeed = .fin 0)
    (s : MgrState) (a : Act) (hr : s.retriesLeft = .fin 0)
    (hp : s.pendingTimers = []) :
    (applyAct cfg s a).retriesLeft = .fin 0 ∧ (applyAct cfg s a).pendingTimers = [] := by
  cases a with
  | openEvt i =>
    simp only [applyAct]
    cases hget : s.handles[i]? with
    | none => exact ⟨hr, hp⟩
    | some h =>
      show (if h.attached = true ∧ h.rs = 0 then doOpen i h s else s).retriesLeft = .fin 0 ∧
        (if h.attached = true ∧ h.rs = 0 then doOpen i h s else s).pendingTimers = []
      split_ifs with hc
      · exact ⟨hr, hp⟩
      · exact ⟨hr, hp⟩
  | msgEvt i d =>
    simp only [applyAct]
    cases hget : s.handles[i]? with
    | none => exact ⟨hr, hp⟩
    | some h =>
      show (if h.attached = true ∧ h.rs = 1 then doMessage cfg d s else s).retriesLeft = .fin 0 ∧
        (if h.attached = true ∧ h.rs = 1 then doMessage cfg d s else s).pendingTimers = []
      split_ifs with hc
      · exact ⟨hr, hp⟩
      · exact ⟨hr, hp⟩
  | errEvt i terminal =>
    simp only [applyAct]
    cases hget : s.handles[i]? with
    | none => exact ⟨hr, hp⟩
    | some h =>
      show (if h.attached = true ∧ h.rs ≠ 2 then doError cfg i h terminal s else s).retriesLeft
          = .fin 0 ∧
        (if h.attached = true ∧ h.rs ≠ 2 then doError cfg i h terminal s else s).pendingTimers
          = []
      split_ifs with hc
      · cases terminal with
        | false =>
          rw [doError_transient]
          exact ⟨hr, hp⟩
        | true =>
          have hpos : s.retriesLeft.pos = false := by rw [hr]; rfl
          rw [doError_terminal_nopos cfg i h s hpos]
          exact ⟨hr, hp⟩
      · exact ⟨hr, hp⟩
  | timerFire t =>
    simp only [applyAct]
    cases hfind : s.pendingTimers.find? (fun tk => tk.tid = t) with
    | none => exact ⟨hr, hp⟩
    | some tk =>
      have := List.mem_of_find?_eq_some hfind
      rw [hp] at this
      cases this
  | close =>
    refine ⟨disconnect_retriesLeft s, disconnect_pendingTimers s ?_⟩
    intro tk htk; rw [hp] at htk; cases htk
  | reconnectCall =>
    constructor
    · show (openConn _ _).retriesLeft = _
      rw [openConn_retriesLeft]
      exact hseed
    · apply openConn_pending
      intro tk htk
      have htk' : tk ∈ (disconnect s).pendingTimers := htk
      rw [disconnect_pendingTimers s (by intro tk' htk'; rw [hp] at htk'; cases htk')] at htk'
      cases htk'
  | urlSet u =>
    simp only [applyAct, urlChange]
    split_ifs with hc
    · exact ⟨hr, hp⟩
    · constructor
      · show (openConn _ _).retriesLeft = _
        rw [openConn_retriesLeft]
        exact hseed
      · apply openConn_pending
        intro tk htk
        have htk' : tk ∈ (invokeCleanup { s with currentUrl := u }).pendingTimers := htk
        rw [invokeCleanup_pending] at htk'
        have htk'' : tk ∈ s.pendingTimers := htk'
        rw [hp] at htk''
        cases htk''
  | dispose =>
    constructor
    · show (invokeCleanup _).retriesLeft = _
      rw [invokeCleanup_retriesLeft, clearReconnectTimer_retriesLeft]
      exact hr
    · show (invokeCleanup _).pendingTimers = []
      rw [invokeCleanup_pending]
      apply clearReconnectTimer_pending
      intro tk htk; rw [hp] at htk; cases htk

/-- With a zero retry seed, every reachable state has a zero budget and an
empty reconnect queue. -/
theorem zeroBudget_run (cfg : Config)
    (hseed : (reconnectConfig cfg.ropt).retriesSeed = .fin 0) (acts : List Act) :
    (run cfg acts).retriesLeft = .fin 0 ∧ (run cfg acts).pendingTimers = [] := by
  rw [run]
  induction acts using List.reverseRecOn with
  | nil =>
    constructor
    · show (openConn _ _).retriesLeft = _
      rw [openConn_retriesLeft]
      exact hseed
    · apply openConn_pending
      intro tk htk
      cases htk
  | append_singleton l a ih =>
    rw [List.foldl_append]
    exact zeroBudget_step cfg hseed _ a ih.1 ih.2

/-- C9 counterexample: a reconnect option object carrying
`retries: Infinity` seeds an infinite budget although the option is not
the value `true` — the claim's "only when the reconnect option is exactly
`true`" is too strong. -/
theorem claim_C9_counterexample :
    (reconnectConfig (.obj (some .inf) (some 5000))).retriesSeed = .inf ∧
    ReconnectOpt.obj (some .inf) (some 5000) ≠ .rtrue := by decide

/-- C9 (amended): a reconnect object omitting `retries` (e.g.
`\x7b delay: 5000 \x7d`) seeds the counter as 0, so the manager performs zero
application-level reconnects: in every reachable state the budget is zero
and no reconnect task is ever pending.  An infinite budget arises only from
`reconnect: true` or from an object explicitly passing `retries: Infinity`. -/
theorem claim_C9 :
    (∀ d : Option ℕ, (reconnectConfig (.obj none d)).retriesSeed = .fin 0) ∧
    (∀ (url : String) (tf : Option (String → String)) (iv : Option String)
        (d : Option ℕ) (acts : List Act),
      (run ⟨url, .obj none d, tf, iv⟩ acts).retriesLeft = .fin 0 ∧
      (run ⟨url, .obj none d, tf, iv⟩ acts).pendingTimers = []) ∧
    (∀ r : ReconnectOpt, (reconnectConfig r).retriesSeed = .inf ↔
      r = .rtrue ∨ ∃ d, r = .obj (some .inf) d) := by
  refine ⟨?_, ?_, ?_⟩
  · intro d; rfl
  · intro url tf iv d acts
    exact zeroBudget_run ⟨url, .obj none d, tf, iv⟩ rfl acts
  · intro r
    cases r with
    | undef => simp [reconnectConfig, RCfg.retriesSeed]
    | rfalse => simp [reconnectConfig, RCfg.retriesSeed]
    | rtrue => simp [reconnectConfig, RCfg.retriesSeed]
    | obj retries delay =>
      cases retries with
      | none => simp [reconnectConfig, RCfg.retriesSeed]
      | some b =>
        cases b with
        | inf => simp [reconnectConfig, RCfg.retriesSeed]
        | fin n => simp [reconnectConfig, RCfg.retriesSeed]


/-! ## Claim theorems: worker protocol and registry -/

/-- C5: a proxy ignores every inbound channel message whose correlation id
is not its own — for two proxies with distinct ids on one channel, a
message carrying the other proxy's id (or any unknown id) leaves the
proxy's cached `readyState` unchanged and dispatches no event on it. -/
theorem claim_C5 (A B : WorkerEventSource) (m : SSEWorkerMessage)
    (hAB : A._id ≠ B._id) (hm : m.msgId = B._id ∨ m.msgId ≠ A._id) :
    listener A m = (A, []) := by
  have hne : m.msgId ≠ A._id := by
    rcases hm with hB | hne
    · rw [hB]; intro hc; exact hAB hc.symm
    · exact hne
  unfold listener
  rw [if_pos hne]

/-- Witness for C5: an `open` message for proxy B delivered to proxy A. -/
theorem claim_C5_witness :
    listener ⟨"idA", 0⟩ (.openMsg "idB") = (⟨"idA", 0⟩, []) :=
  claim_C5 ⟨"idA", 0⟩ ⟨"idB", 0⟩ (.openMsg "idB") (by decide) (Or.inl rfl)

/-- The worker-registry invariant behind C10: connection `0` is still open,
and no registry entry can ever release it. -/
theorem wStuck_step (s : WorkerState) (m : SSEWorkerMessage)
    (h0 : s.instances[0]? = some true)
    (hc : ∀ p ∈ s.connections, p.2 ≠ 0)
    (hl : 2 ≤ s.instances.length) :
    (wHandleMessage m s).instances[0]? = some true ∧
    (∀ p ∈ (wHandleMessage m s).connections, p.2 ≠ 0) ∧
    2 ≤ (wHandleMessage m s).instances.length := by
  cases m with
  | connect id url wc ev =>
    refine ⟨?_, ?_, ?_⟩
    · show (s.instances ++ [true])[0]? = some true
      rw [List.getElem?_append, if_pos (by omega)]
      exact h0
    · show ∀ p ∈ mapSet id s.instances.length s.connections, p.2 ≠ 0
      intro p hp
      unfold mapSet at hp
      split_ifs at hp with hcase
      · obtain ⟨q, hq, hpq⟩ := List.mem_map.mp hp
        by_cases hqk : q.1 = id
        · rw [if_pos hqk] at hpq
          rw [← hpq]
          show s.instances.length ≠ 0
          omega
        · rw [if_neg hqk] at hpq
          rw [← hpq]
          exact hc q hq
      · rcases List.mem_append.mp hp with hold | hnew
        · exact hc p hold
        · have : p = (id, s.instances.length) := by simpa using hnew
          rw [this]
          show s.instances.length ≠ 0
          omega
    · show 2 ≤ (s.instances ++ [true]).length
      rw [List.length_append]
      omega
  | disconnect id =>
    unfold wHandleMessage mapDelete
    dsimp only
    cases hget : mapGet id s.connections with
    | none =>
      refine ⟨h0, ?_, hl⟩
      intro p hp
      exact hc p (List.mem_of_mem_filter hp)
    | some n =>
      have hn : n ≠ 0 := by
        unfold mapGet at hget
        cases hfind : s.connections.find? (fun p => p.1 = id) with
        | none => rw [hfind] at hget; cases hget
        | some q =>
          rw [hfind] at hget
          have hq2 : q.2 = n := by simpa using hget
          rw [← hq2]
          exact hc q (List.mem_of_find?_eq_some hfind)
      refine ⟨?_, ?_, ?_⟩
      · show (s.instances.set n false)[0]? = some true
        rw [List.getElem?_set_ne hn]
        exact h0
      · intro p hp
        exact hc p (List.mem_of_mem_filter hp)
      · show 2 ≤ (s.instances.set n false).length
        rw [List.length_set]
        exact hl
  | openMsg id => exact ⟨h0, hc, hl⟩
  | message id d et => exact ⟨h0, hc, hl⟩
  | error id rs => exact ⟨h0, hc, hl⟩

theorem wStuck_run (msgs : List SSEWorkerMessage) :
    ∀ s : WorkerState, s.instances[0]? = some true →
      (∀ p ∈ s.connections, p.2 ≠ 0) → 2 ≤ s.instances.length →
      (wRun msgs s).instances[0]? = some true := by
  induction msgs with
  | nil => exact fun s h0 _ _ => h0
  | cons m msgs ih =>
    intro s h0 hc hl
    obtain ⟨h0p, hcp, hlp⟩ := wStuck_step s m h0 hc hl
    exact ih _ h0p hcp hlp

/-- The registry after two `connect` messages with the same id: `"u1"` then
`"u2"`. -/
def regTwice : WorkerState :=
  wHandleMessage (.connect "a" "u2" none none)
    (wHandleMessage (.connect "a" "u1" none none) WorkerState.empty)

/-- C10: a second `connect` with an already-registered id overwrites the
registry entry without invoking the stored release function — both platform
connections are open, only the second one's cleanup is mapped, and the
first connection can never be closed by any later message sequence (its
release function is unreachable). -/
theorem claim_C10 :
    regTwice.instances = [true, true] ∧
    regTwice.connections = [("a", 1)] ∧
    (∀ msgs : List SSEWorkerMessage, (wRun msgs regTwice).instances[0]? = some true) := by
  refine ⟨by decide, by decide, ?_⟩
  intro msgs
  apply wStuck_run msgs regTwice
  · decide
  · decide
  · decide

end SSE
